import Mathlib

/-!
# VendorSelector-AI: a verified shallow embedding

Shallow embedding of `src/VendorSelector-AI.py` (class `VendorSelectorAI`).
Python floats are modelled as exact rationals (`ℚ`); Python's built-in
`round(x, 2)` is modelled as exact round-half-to-even at two decimal places,
which is its documented tie-breaking rule; raised `ValueError`s are modelled
by `Except Err`; the mutable `self.suppliers` list is modelled by explicit
accumulator passing.
-/

namespace VendorSelector

/-- A raw field value as produced by the CSV/JSON record parsers:
JSON supplies numbers or strings, CSV supplies strings. -/
inductive RawValue where
  | num (q : ℚ)
  | str (s : String)
deriving DecidableEq, Repr

/-- A parsed record: a mapping from field name to raw value
(`Dict` rows produced by `csv.DictReader` / `json.loads`). -/
abbrev Record := List (String × RawValue)

/-- Field lookup in a record (`field in data` / `data[field]`). -/
def lookupField (r : Record) (f : String) : Option RawValue :=
  r.lookup f

/-- The numeric value of a list of decimal digit characters. -/
def digitsVal (cs : List Char) : Nat :=
  cs.foldl (fun a c => a * 10 + (c.toNat - 48)) 0

/-- Model of Python `float(s)` on a string, restricted to the plain decimal
numerals the program's inputs use: optional sign, digits, optional point
(`"12"`, `"12.5"`, `"+3."`, `"-.25"`). Exponent, infinity, nan and
underscore forms of `float` are outside the model; every input exercised by
the claims is either a plain decimal numeral (accepted) or a non-numeral
(rejected, as `float` rejects it). -/
def parseDecimal? (s : String) : Option ℚ :=
  let cs := s.toList
  let sgnBody : ℚ × List Char :=
    match cs with
    | '-' :: rest => (-1, rest)
    | '+' :: rest => (1, rest)
    | _ => (1, cs)
  let sgn := sgnBody.1
  let body := sgnBody.2
  let ip := body.takeWhile (fun c => c ≠ '.')
  let rest := body.dropWhile (fun c => c ≠ '.')
  match rest with
  | [] =>
      if !ip.isEmpty && ip.all Char.isDigit then
        some (sgn * (digitsVal ip : ℚ))
      else none
  | _ :: frac =>
      if (!ip.isEmpty || !frac.isEmpty) && ip.all Char.isDigit
          && frac.all Char.isDigit then
        some (sgn * ((digitsVal ip : ℚ) + (digitsVal frac : ℚ) / 10 ^ frac.length))
      else none

/-- The errors the program raises (all as Python `ValueError`).
`floatConvError` is the builtin error raised by `float(...)` itself; its
message (`could not convert string to float: ...`) carries only the raw
text, never a supplier id or a field name.
The custom invalid-type message at line 59 of the source
(`ERROR: Invalid data type in {supplier_id}: {field_name}`) is unreachable:
both call chains pass `validate_score` a result of `float(...)`, so its
`isinstance` guard is always satisfied; the embedding therefore has no
constructor for it. -/
inductive Err where
  | unsupportedLanguage
  | invalidFormat
  | missingFieldsErr (fields : List String)
  | floatConvError (raw : String)
  | invalidRange (supplierId : RawValue) (field : String)
deriving DecidableEq, Repr

/-- Python `float(x)` applied to a raw field value (lines 92-94):
numbers pass through, strings are parsed as decimal numerals,
failure raises the builtin conversion error. -/
def coerceFloat : RawValue → Except Err ℚ
  | .num q => .ok q
  | .str s =>
      match parseDecimal? s with
      | some q => .ok q
      | none => .error (.floatConvError s)

/-- The `Supplier` dataclass (lines 8-14). `overall_score` defaults to 0
and is overwritten right after validation. -/
structure Supplier where
  supplier_id : RawValue
  price_score : ℚ
  delivery_reliability_score : ℚ
  quality_rating_score : ℚ
  overall_score : ℚ := 0
deriving DecidableEq, Repr

/-- Round a rational to the nearest integer, ties to the even integer:
the documented tie-breaking behaviour of Python 3 `round`. -/
def pythonRound (x : ℚ) : ℤ :=
  let f := ⌊x⌋
  let r := x - (f : ℚ)
  if r < 1 / 2 then f
  else if 1 / 2 < r then f + 1
  else if f % 2 = 0 then f else f + 1

/-- Python `round(x, 2)` under exact rational semantics:
round-half-to-even at two decimal places. -/
def round2 (x : ℚ) : ℚ :=
  (pythonRound (x * 100) : ℚ) / 100

/-- The unrounded weighted sum of `calculate_overall_score` (lines 105-107). -/
def rawOverall (s : Supplier) : ℚ :=
  s.price_score / 100 * 0.4 + s.delivery_reliability_score / 100 * 0.3
    + s.quality_rating_score / 100 * 0.3

/-- Source function `calculate_overall_score` (lines 104-108). -/
def calculate_overall_score (s : Supplier) : ℚ :=
  round2 (rawOverall s)

/-- Source function `validate_score` (lines 57-62), specialised to its always-float
arguments: only the range check can fire (see `Err`). -/
def validate_score (score : ℚ) (field_name : String) (supplier_id : RawValue) :
    Except Err Unit :=
  if 0 ≤ score ∧ score ≤ 100 then .ok ()
  else .error (.invalidRange supplier_id field_name)

/-- The four required fields, in source order (line 84). -/
def requiredFields : List String :=
  ["supplier_id", "price_score", "delivery_reliability_score",
    "quality_rating_score"]

/-- The required fields absent from a record (line 85). -/
def missingFields (data : Record) : List String :=
  requiredFields.filter (fun f => (lookupField data f).isNone)

/-- Source method `_process_supplier_data` (lines 83-102): missing-field check, then the
three `float(...)` coercions in `Supplier(...)` argument order, then the
three `validate_score` range checks in source order, then the
`overall_score` computation. Returns the supplier that gets appended, or
the first error raised. -/
def processSupplierData (data : Record) : Except Err Supplier :=
  if (missingFields data).isEmpty then
    match coerceFloat ((lookupField data "price_score").getD (.str "")),
        coerceFloat ((lookupField data "delivery_reliability_score").getD (.str "")),
        coerceFloat ((lookupField data "quality_rating_score").getD (.str "")) with
    | .ok p, .ok d, .ok q =>
        let supplier : Supplier :=
          { supplier_id := (lookupField data "supplier_id").getD (.str "")
            price_score := p
            delivery_reliability_score := d
            quality_rating_score := q }
        match validate_score supplier.price_score "price_score" supplier.supplier_id with
        | .error e => .error e
        | .ok _ =>
          match validate_score supplier.delivery_reliability_score
              "delivery_reliability_score" supplier.supplier_id with
          | .error e => .error e
          | .ok _ =>
            match validate_score supplier.quality_rating_score
                "quality_rating_score" supplier.supplier_id with
            | .error e => .error e
            | .ok _ =>
                .ok { supplier with
                        overall_score := calculate_overall_score supplier }
    | .error e, _, _ => .error e
    | .ok _, .error e, _ => .error e
    | .ok _, .ok _, .error e => .error e
  else .error (.missingFieldsErr (missingFields data))

/-- Sequential per-record processing of a batch with the accumulated
`self.suppliers` list: each valid record's supplier is appended; the first
error aborts, leaving the suppliers appended so far and the error
(`parse_csv_data` / `parse_json_data` loops, lines 73-81). -/
def processBatchAux : List Record → List Supplier → List Supplier × Option Err
  | [], acc => (acc, none)
  | r :: rs, acc =>
      match processSupplierData r with
      | .ok s => processBatchAux rs (acc ++ [s])
      | .error e => (acc, some e)

/-- Processing a whole batch starting from the empty supplier collection. -/
def processBatch (rs : List Record) : List Supplier × Option Err :=
  processBatchAux rs []

/-- Source function `validate_language` (lines 46-50): Python `str.isascii`. -/
def validate_language (text : String) : Except Err Unit :=
  if text.all (fun c => c.toNat ≤ 127) then .ok ()
  else .error .unsupportedLanguage

/-- Source function `validate_format` (lines 52-55). -/
def validate_format (format_type : String) : Except Err Unit :=
  if format_type = "csv" ∨ format_type = "json" then .ok ()
  else .error .invalidFormat

/-- The Python sort key comparison of line 184:
`sorted(self.suppliers, key=lambda x: x.overall_score, reverse=True)`
orders by `overall_score` descending. -/
def scoreLE (a b : Supplier) : Bool :=
  decide (b.overall_score ≤ a.overall_score)

/-- The ranked view of line 184. Python `sorted` is a stable sort;
`List.mergeSort` is the stable sort of the Lean library. -/
def rankSuppliers (sups : List Supplier) : List Supplier :=
  sups.mergeSort scoreLE

/-- Line 185: `ranked_suppliers[0].overall_score if ranked_suppliers else 0`. -/
def topScoreOf : List Supplier → ℚ
  | [] => 0
  | s :: _ => s.overall_score

/-- The content of the report of `generate_final_report` (lines 183-220):
the total count (line 195), the ranked detailed-analysis sequence with each
supplier's `is_top` flag (lines 200-202), the top score (line 185), and
the suppliers listed in the final-ranking section (lines 210-212). -/
structure FinalReport where
  totalSuppliers : Nat
  rankedSuppliers : List Supplier
  topScore : ℚ
  topFlags : List (Supplier × Bool)
  finalRanking : List Supplier
deriving DecidableEq, Repr

/-- Source function `generate_final_report` (lines 183-220), modelled as the report's
content rather than its rendered text. -/
def generate_final_report (sups : List Supplier) : FinalReport :=
  let ranked := rankSuppliers sups
  let top := topScoreOf ranked
  { totalSuppliers := sups.length
    rankedSuppliers := ranked
    topScore := top
    topFlags := ranked.map (fun s => (s, decide (s.overall_score = top)))
    finalRanking := ranked.filter (fun s => decide (s.overall_score = top)) }

/-- One evaluation session (`main`, lines 241-253): process the batch; on
any error the error message is the sole output and no report is produced;
otherwise the final report is produced from the accumulated suppliers. -/
def runSession (rs : List Record) : Except Err FinalReport :=
  match processBatch rs with
  | (_, some e) => .error e
  | (sups, none) => .ok (generate_final_report sups)


/-! ## Helper lemmas -/

theorem scoreLE_trans : ∀ (a b c : Supplier), scoreLE a b → scoreLE b c → scoreLE a c := by
  intro a b c hab hbc
  simp only [scoreLE, decide_eq_true_eq] at *
  exact le_trans hbc hab

theorem scoreLE_total : ∀ (a b : Supplier), scoreLE a b || scoreLE b a := by
  intro a b
  simp only [scoreLE, Bool.or_eq_true, decide_eq_true_eq]
  exact le_total b.overall_score a.overall_score

/-- Stability of the ranking: filtering the ranked list by an exact score
value gives the same list, in the same order, as filtering the input. -/
theorem filter_rankSuppliers (sups : List Supplier) (c : ℚ) :
    (rankSuppliers sups).filter (fun s => decide (s.overall_score = c))
      = sups.filter (fun s => decide (s.overall_score = c)) := by
  have hsub : List.Sublist (sups.filter (fun s => decide (s.overall_score = c)))
      (rankSuppliers sups) := by
    apply List.sublist_mergeSort scoreLE_trans scoreLE_total
    · refine (List.pairwise_filter).mpr ?_
      refine List.pairwise_of_forall ?_
      intro a b ha hb
      simp [scoreLE, ha, hb]
    · exact List.filter_sublist _
  have hsub2 : List.Sublist (sups.filter (fun s => decide (s.overall_score = c)))
      ((rankSuppliers sups).filter (fun s => decide (s.overall_score = c))) := by
    have h2 := hsub.filter (fun s => decide (s.overall_score = c))
    simpa [List.filter_filter] using h2
  apply (hsub2.eq_of_length ?_).symm
  have hperm : List.Perm (rankSuppliers sups) sups := List.mergeSort_perm sups scoreLE
  exact ((hperm.filter _).length_eq).symm

/-- The ranked list is ordered by `overall_score` descending. -/
theorem rank_sorted (sups : List Supplier) :
    (rankSuppliers sups).Pairwise (fun a b => b.overall_score ≤ a.overall_score) := by
  have h := List.sorted_mergeSort scoreLE_trans scoreLE_total sups
  refine h.imp ?_
  intro a b hab
  simpa [scoreLE] using hab

/-- The reported top score bounds every supplier's score. -/
theorem top_is_max (sups : List Supplier) (s : Supplier) (hs : s ∈ sups) :
    s.overall_score ≤ (generate_final_report sups).topScore := by
  have hmem : s ∈ rankSuppliers sups := by
    simpa [rankSuppliers] using hs
  have hsorted := rank_sorted sups
  simp only [generate_final_report]
  cases hr : rankSuppliers sups with
  | nil => rw [hr] at hmem; cases hmem
  | cons h t =>
    rw [hr] at hmem hsorted
    rcases List.mem_cons.mp hmem with rfl | hmt
    · simp [topScoreOf]
    · have := (List.pairwise_cons.mp hsorted).1 s hmt
      simpa [topScoreOf] using this

/-- On a nonempty batch the reported top score is attained. -/
theorem top_attained (sups : List Supplier) (hne : sups ≠ []) :
    ∃ s ∈ sups, s.overall_score = (generate_final_report sups).topScore := by
  have hperm : List.Perm (rankSuppliers sups) sups := List.mergeSort_perm sups scoreLE
  simp only [generate_final_report]
  cases hr : rankSuppliers sups with
  | nil =>
      exfalso
      apply hne
      have h2 := hperm.symm
      rw [hr] at h2
      exact h2.eq_nil
  | cons h t =>
      refine ⟨h, ?_, by simp [topScoreOf]⟩
      have hh : h ∈ rankSuppliers sups := by rw [hr]; exact List.mem_cons_self h t
      exact hperm.mem_iff.mp hh

theorem pythonRound_nonneg (x : ℚ) (hx : 0 ≤ x) : 0 ≤ pythonRound x := by
  have hf : (0 : ℤ) ≤ ⌊x⌋ := Int.floor_nonneg.mpr hx
  simp only [pythonRound]
  split
  · exact hf
  · split
    · omega
    · split <;> omega

theorem pythonRound_le_ceil (x : ℚ) : pythonRound x ≤ ⌈x⌉ := by
  have hfc : ⌊x⌋ ≤ ⌈x⌉ := Int.floor_le_ceil x
  have hup : 1 / 2 ≤ x - (⌊x⌋ : ℚ) → ⌊x⌋ + 1 ≤ ⌈x⌉ := by
    intro hr
    have hlt : (⌊x⌋ : ℚ) < x := by linarith
    have hcast : (⌊x⌋ : ℚ) < (⌈x⌉ : ℚ) := lt_of_lt_of_le hlt (Int.le_ceil x)
    have : ⌊x⌋ < ⌈x⌉ := by exact_mod_cast hcast
    omega
  simp only [pythonRound]
  split
  · exact hfc
  · rename_i h1
    push_neg at h1
    split
    · exact hup h1
    · split
      · exact hfc
      · exact hup h1

/-- A value in `[0, 1]` stays in `[0, 1]` after two-decimal rounding. -/
theorem round2_unit_interval (x : ℚ) (h0 : 0 ≤ x) (h1 : x ≤ 1) :
    0 ≤ round2 x ∧ round2 x ≤ 1 := by
  have ha : 0 ≤ x * 100 := by linarith
  have hb : x * 100 ≤ 100 := by linarith
  have hl := pythonRound_nonneg (x * 100) ha
  have hu : pythonRound (x * 100) ≤ 100 := by
    refine le_trans (pythonRound_le_ceil _) ?_
    have : ⌈x * 100⌉ ≤ ((100 : ℤ) : ℤ) := Int.ceil_le.mpr (by exact_mod_cast hb)
    simpa using this
  constructor
  · apply div_nonneg _ (by norm_num)
    exact_mod_cast hl
  · show (pythonRound (x * 100) : ℚ) / 100 ≤ 1
    rw [div_le_one (by norm_num)]
    exact_mod_cast hu


theorem processBatchAux_ok_prefix : ∀ (pre rest : List Record) (acc : List Supplier),
    (∀ r ∈ pre, (processSupplierData r).isOk = true) →
    ∃ acc2, processBatchAux (pre ++ rest) acc = processBatchAux rest acc2 := by
  intro pre
  induction pre with
  | nil => intro rest acc _; exact ⟨acc, rfl⟩
  | cons r rs ih =>
      intro rest acc h
      have hr := h r (List.mem_cons_self r rs)
      cases hpr : processSupplierData r with
      | ok s =>
          simp only [List.cons_append, processBatchAux, hpr]
          exact ih rest (acc ++ [s]) (fun r2 hr2 => h r2 (List.mem_cons_of_mem _ hr2))
      | error e =>
          rw [hpr] at hr
          simp [Except.isOk, Except.toBool] at hr

theorem mem_processBatchAux : ∀ (rs : List Record) (acc : List Supplier) (s : Supplier),
    s ∈ (processBatchAux rs acc).1 →
    s ∈ acc ∨ ∃ r ∈ rs, processSupplierData r = .ok s := by
  intro rs
  induction rs with
  | nil =>
      intro acc s h
      simp only [processBatchAux] at h
      exact Or.inl h
  | cons r rs ih =>
      intro acc s h
      cases hpr : processSupplierData r with
      | ok s2 =>
          simp only [processBatchAux, hpr] at h
          rcases ih (acc ++ [s2]) s h with hmem | ⟨r2, hr2, hok⟩
          · rcases List.mem_append.mp hmem with h1 | h2
            · exact Or.inl h1
            · right
              refine ⟨r, List.mem_cons_self r rs, ?_⟩
              have hs : s = s2 := by simpa using h2
              rw [hs, hpr]
          · exact Or.inr ⟨r2, List.mem_cons_of_mem _ hr2, hok⟩
      | error e =>
          simp only [processBatchAux, hpr] at h
          exact Or.inl h

theorem missingFields_ne_nil_of_absent (r : Record) (f : String)
    (hf : f ∈ requiredFields) (habs : (lookupField r f).isNone = true) :
    missingFields r ≠ [] := by
  apply List.ne_nil_of_mem (a := f)
  simp only [missingFields, List.mem_filter]
  exact ⟨hf, habs⟩

theorem processSupplierData_missing (r : Record) (h : missingFields r ≠ []) :
    processSupplierData r = .error (.missingFieldsErr (missingFields r)) := by
  unfold processSupplierData
  rw [if_neg]
  simpa [List.isEmpty_iff] using h

theorem processSupplierData_ok_inv (r : Record) (s : Supplier)
    (h : processSupplierData r = .ok s) :
    missingFields r = []
      ∧ 0 ≤ s.price_score ∧ s.price_score ≤ 100
      ∧ 0 ≤ s.delivery_reliability_score ∧ s.delivery_reliability_score ≤ 100
      ∧ 0 ≤ s.quality_rating_score ∧ s.quality_rating_score ≤ 100
      ∧ s.overall_score = calculate_overall_score s := by
  unfold processSupplierData at h
  by_cases hm : (missingFields r).isEmpty
  case neg => rw [if_neg hm] at h; cases h
  case pos =>
  rw [if_pos hm] at h
  refine ⟨by simpa [List.isEmpty_iff] using hm, ?_⟩
  unfold validate_score at h
  split at h
  case _ p d q =>
    dsimp only at h
    split at h
    case _ e heq =>
      split at heq
      · cases heq
      · cases h
    case _ u heq =>
      split at heq
      case _ hp =>
        clear heq
        split at h
        case _ e heq =>
          split at heq
          · cases heq
          · cases h
        case _ u2 heq =>
          split at heq
          case _ hd =>
            clear heq
            split at h
            case _ e heq =>
              split at heq
              · cases heq
              · cases h
            case _ u3 heq =>
              split at heq
              case _ hq =>
                clear heq
                cases h
                refine ⟨hp.1, hp.2, hd.1, hd.2, hq.1, hq.2, ?_⟩
                rfl
              case _ => cases heq
          case _ => cases heq
      case _ => cases heq
  case _ e hx hy => cases h
  case _ a e hx => cases h
  case _ a a2 e => cases h


/-! ## Sample data for witnesses -/

/-- A record that passes every validation check. -/
def sampleValidRecord : Record :=
  [("supplier_id", .str "S1"), ("price_score", .num 80),
    ("delivery_reliability_score", .num 90), ("quality_rating_score", .num 70)]

/-- A record in which `quality_rating_score` is absent. -/
def sampleMissingQuality : Record :=
  [("supplier_id", .str "S2"), ("price_score", .num 50),
    ("delivery_reliability_score", .num 60)]

/-- A record in which both `price_score` and `quality_rating_score` are absent. -/
def sampleMissingTwo : Record :=
  [("supplier_id", .str "S3"), ("delivery_reliability_score", .num 5)]

/-- A supplier whose exact weighted sum is 0.125, landing exactly on a half. -/
def sampleHalf : Supplier :=
  { supplier_id := .str "S1", price_score := 5, delivery_reliability_score := 0,
    quality_rating_score := 35, overall_score := 0 }

/-- A supplier with all three scores at the upper bound 100. -/
def sampleFull : Supplier :=
  { supplier_id := .str "S1", price_score := 100,
    delivery_reliability_score := 100, quality_rating_score := 100,
    overall_score := 0 }

/-- The supplier the program appends for `sampleValidRecord`. -/
def sampleProcessed : Supplier :=
  { supplier_id := .str "S1", price_score := 80, delivery_reliability_score := 90,
    quality_rating_score := 70,
    overall_score := calculate_overall_score
      { supplier_id := .str "S1", price_score := 80,
        delivery_reliability_score := 90, quality_rating_score := 70,
        overall_score := 0 } }

/-- Two suppliers with the same overall score 0.85. -/
def sampleTieA : Supplier :=
  { supplier_id := .str "A", price_score := 85, delivery_reliability_score := 85,
    quality_rating_score := 85, overall_score := 0.85 }

/-- A second supplier tied at overall score 0.85. -/
def sampleTieB : Supplier :=
  { supplier_id := .str "B", price_score := 85, delivery_reliability_score := 85,
    quality_rating_score := 85, overall_score := 0.85 }

/-! ## Claim theorems -/

/-- C1: for every supplier whose three scores lie in `[0, 100]`,
`calculate_overall_score` returns the two-decimal rounding of
`(p/100)*0.4 + (d/100)*0.3 + (q/100)*0.3`, which equals the rounding of
`0.004p + 0.003d + 0.003q`, and the result lies in `[0, 1]`. -/
theorem overall_score_formula_and_bounds (s : Supplier)
    (hp0 : 0 ≤ s.price_score) (hp1 : s.price_score ≤ 100)
    (hd0 : 0 ≤ s.delivery_reliability_score) (hd1 : s.delivery_reliability_score ≤ 100)
    (hq0 : 0 ≤ s.quality_rating_score) (hq1 : s.quality_rating_score ≤ 100) :
    calculate_overall_score s
        = round2 (0.004 * s.price_score + 0.003 * s.delivery_reliability_score
            + 0.003 * s.quality_rating_score)
      ∧ 0 ≤ calculate_overall_score s ∧ calculate_overall_score s ≤ 1 := by
  have harg : rawOverall s
      = 0.004 * s.price_score + 0.003 * s.delivery_reliability_score
        + 0.003 * s.quality_rating_score := by
    unfold rawOverall; ring
  have h0 : 0 ≤ rawOverall s := by unfold rawOverall; linarith
  have h1 : rawOverall s ≤ 1 := by unfold rawOverall; linarith
  have hb := round2_unit_interval (rawOverall s) h0 h1
  exact ⟨by unfold calculate_overall_score; rw [harg], hb.1, hb.2⟩

theorem overall_score_formula_and_bounds_witness :
    calculate_overall_score sampleFull
        = round2 (0.004 * sampleFull.price_score
            + 0.003 * sampleFull.delivery_reliability_score
            + 0.003 * sampleFull.quality_rating_score)
      ∧ 0 ≤ calculate_overall_score sampleFull
      ∧ calculate_overall_score sampleFull ≤ 1 :=
  overall_score_formula_and_bounds sampleFull (by norm_num [sampleFull])
    (by norm_num [sampleFull]) (by norm_num [sampleFull]) (by norm_num [sampleFull])
    (by norm_num [sampleFull]) (by norm_num [sampleFull])

/-- C2: for every nonempty batch, the final-ranking section lists exactly the
suppliers whose `overall_score` equals the reported top score, in stable
order, and that top score is the maximum over the batch: it bounds every
supplier's score and is attained by some supplier. -/
theorem final_ranking_lists_exactly_top_cohort (sups : List Supplier) (hne : sups ≠ []) :
    (generate_final_report sups).finalRanking
        = sups.filter (fun s => decide (s.overall_score = (generate_final_report sups).topScore))
      ∧ (∀ s ∈ sups, s.overall_score ≤ (generate_final_report sups).topScore)
      ∧ ∃ s ∈ sups, s.overall_score = (generate_final_report sups).topScore := by
  refine ⟨?_, fun s hs => top_is_max sups s hs, top_attained sups hne⟩
  simp only [generate_final_report]
  exact filter_rankSuppliers sups _

theorem final_ranking_lists_exactly_top_cohort_witness :
    (generate_final_report [sampleTieA, sampleTieB]).finalRanking
        = [sampleTieA, sampleTieB].filter
            (fun s => decide (s.overall_score
              = (generate_final_report [sampleTieA, sampleTieB]).topScore))
      ∧ (∀ s ∈ [sampleTieA, sampleTieB],
          s.overall_score ≤ (generate_final_report [sampleTieA, sampleTieB]).topScore)
      ∧ ∃ s ∈ [sampleTieA, sampleTieB],
          s.overall_score = (generate_final_report [sampleTieA, sampleTieB]).topScore :=
  final_ranking_lists_exactly_top_cohort [sampleTieA, sampleTieB] (by simp)

/-- C3: the ranked sequence of the report is ordered by `overall_score`
descending, and for each exact score value the suppliers carrying it appear
in the ranked output in their input order (stability of the sort). -/
theorem ranking_descending_and_stable (sups : List Supplier) :
    ((generate_final_report sups).rankedSuppliers).Pairwise
        (fun a b => b.overall_score ≤ a.overall_score)
      ∧ ∀ c : ℚ,
          ((generate_final_report sups).rankedSuppliers).filter
              (fun s => decide (s.overall_score = c))
            = sups.filter (fun s => decide (s.overall_score = c)) := by
  constructor
  · simpa [generate_final_report] using rank_sorted sups
  · intro c
    simpa [generate_final_report] using filter_rankSuppliers sups c

/-- C4: if every record before `r` is valid and `r` is the first invalid
record, the session output is exactly `r`'s error and no report is
produced; when `r` lacks `quality_rating_score`, that error is a
missing-field error naming `quality_rating_score`. -/
theorem batch_aborts_at_first_invalid_record (pre post : List Record) (r : Record) (e : Err)
    (hpre : ∀ r2 ∈ pre, (processSupplierData r2).isOk = true)
    (hr : processSupplierData r = .error e) :
    runSession (pre ++ r :: post) = .error e
      ∧ ((lookupField r "quality_rating_score").isNone = true →
          ∃ fs, e = .missingFieldsErr fs ∧ "quality_rating_score" ∈ fs) := by
  constructor
  · unfold runSession processBatch
    obtain ⟨acc2, hacc⟩ := processBatchAux_ok_prefix pre (r :: post) [] hpre
    rw [hacc]
    simp [processBatchAux, hr]
  · intro hq
    have hne := missingFields_ne_nil_of_absent r "quality_rating_score"
      (by simp [requiredFields]) hq
    have herr := processSupplierData_missing r hne
    rw [hr] at herr
    injection herr with h2
    refine ⟨missingFields r, h2, ?_⟩
    simp [missingFields, List.mem_filter, requiredFields, hq]

theorem batch_aborts_at_first_invalid_record_witness :
    runSession ([sampleValidRecord] ++ sampleMissingQuality :: [])
        = .error (.missingFieldsErr ["quality_rating_score"])
      ∧ ((lookupField sampleMissingQuality "quality_rating_score").isNone = true →
          ∃ fs, Err.missingFieldsErr ["quality_rating_score"] = .missingFieldsErr fs
            ∧ "quality_rating_score" ∈ fs) :=
  batch_aborts_at_first_invalid_record [sampleValidRecord] [] sampleMissingQuality
    (.missingFieldsErr ["quality_rating_score"])
    (by
      intro r2 hr2
      have h3 : r2 = sampleValidRecord := by simpa using hr2
      rw [h3]
      rfl)
    rfl

/-- C5: whenever one or more required fields are absent from a record,
processing fails with a missing-field error listing all of them: the listed
fields are exactly the required fields absent from the record. -/
theorem missing_field_error_lists_all (r : Record) (h : missingFields r ≠ []) :
    processSupplierData r = .error (.missingFieldsErr (missingFields r))
      ∧ ∀ f, f ∈ missingFields r ↔ f ∈ requiredFields ∧ (lookupField r f).isNone = true := by
  refine ⟨processSupplierData_missing r h, ?_⟩
  intro f
  simp [missingFields, List.mem_filter]

theorem missing_field_error_lists_all_witness :
    processSupplierData sampleMissingTwo
        = .error (.missingFieldsErr (missingFields sampleMissingTwo))
      ∧ ∀ f, f ∈ missingFields sampleMissingTwo
          ↔ f ∈ requiredFields ∧ (lookupField sampleMissingTwo f).isNone = true :=
  missing_field_error_lists_all sampleMissingTwo (by decide)

/-- C6: the range check accepts exactly 0 and exactly 100, and rejects every
value outside `[0, 100]` with an invalid-range error naming the offending
supplier id and field. -/
theorem range_check_boundaries (sid : RawValue) (f : String) (v : ℚ)
    (hout : v < 0 ∨ 100 < v) :
    validate_score 0 f sid = .ok () ∧ validate_score 100 f sid = .ok ()
      ∧ validate_score v f sid = .error (.invalidRange sid f) := by
  refine ⟨?_, ?_, ?_⟩
  · unfold validate_score
    rw [if_pos (by norm_num)]
  · unfold validate_score
    rw [if_pos (by norm_num)]
  · unfold validate_score
    rw [if_neg]
    rintro ⟨hc1, hc2⟩
    rcases hout with hl | hl
    · linarith
    · linarith

theorem range_check_boundaries_witness :
    (validate_score 0 "price_score" (.str "S1") = .ok ()
      ∧ validate_score 100 "price_score" (.str "S1") = .ok ()
      ∧ validate_score 100.0001 "price_score" (.str "S1")
          = .error (.invalidRange (.str "S1") "price_score"))
    ∧ validate_score (-0.0001) "quality_rating_score" (.str "S2")
        = .error (.invalidRange (.str "S2") "quality_rating_score") :=
  ⟨range_check_boundaries (.str "S1") "price_score" 100.0001 (Or.inr (by norm_num)),
    (range_check_boundaries (.str "S2") "quality_rating_score" (-0.0001)
      (Or.inl (by norm_num))).2.2⟩

/-- C7: a record whose four required fields are present but whose
`price_score` is a non-numeric string fails with the builtin float
conversion error, which carries only the raw text — not with a custom
invalid-type error naming the supplier id and field, because `float(...)`
runs before `validate_score`'s type check ever could. -/
theorem nonnumeric_score_raises_builtin_float_error :
    processSupplierData
        [("supplier_id", .str "S1"), ("price_score", .str "abc"),
          ("delivery_reliability_score", .str "50"),
          ("quality_rating_score", .str "50")]
      = .error (.floatConvError "abc") := rfl

/-- C8 (counterexample): the supplier with scores 5, 0, 35 has exact weighted
sum 0.125, landing exactly on a half, yet the code rounds it to 0.12 — the
value closer to zero — so rounding is not half-away-from-zero. -/
theorem half_rounds_toward_zero_counterexample :
    rawOverall sampleHalf = 0.125
      ∧ calculate_overall_score sampleHalf = 0.12
      ∧ calculate_overall_score sampleHalf ≠ 0.13 := by
  have h : calculate_overall_score sampleHalf = 0.12 := by
    norm_num [sampleHalf, calculate_overall_score, round2, rawOverall, pythonRound]
  refine ⟨by norm_num [sampleHalf, rawOverall], h, ?_⟩
  rw [h]
  norm_num

/-- C8 (amended): rounding at two decimal places is round-half-to-even, the
behaviour of Python 3 `round`: whenever the weighted sum lands exactly on a
half, the rounded hundredths value is the even one, and the overall score is
that value divided by 100. -/
theorem half_ties_round_to_even (s : Supplier)
    (h : Int.fract (rawOverall s * 100) = 1 / 2) :
    pythonRound (rawOverall s * 100) % 2 = 0
      ∧ calculate_overall_score s
          = (pythonRound (rawOverall s * 100) : ℚ) / 100 := by
  constructor
  · have hfr : rawOverall s * 100 - (⌊rawOverall s * 100⌋ : ℚ) = 1 / 2 := by
      rw [Int.fract] at h
      exact h
    simp only [pythonRound]
    rw [if_neg (by rw [hfr]; norm_num), if_neg (by rw [hfr]; norm_num)]
    split
    · assumption
    · omega
  · rfl

theorem half_ties_round_to_even_witness :
    pythonRound (rawOverall sampleHalf * 100) % 2 = 0
      ∧ calculate_overall_score sampleHalf
          = (pythonRound (rawOverall sampleHalf * 100) : ℚ) / 100 :=
  half_ties_round_to_even sampleHalf
    (by norm_num [sampleHalf, rawOverall, Int.fract])

/-- C9: every supplier in the accumulated collection after processing a batch
came from a record with all four required fields present that processed
successfully, has all three scores in `[0, 100]`, and carries
`overall_score` equal to the computed weighted score — no partially-valid
supplier is ever appended. -/
theorem collection_invariant (rs : List Record) (s : Supplier)
    (h : s ∈ (processBatch rs).1) :
    (∃ r ∈ rs, missingFields r = [] ∧ processSupplierData r = .ok s)
      ∧ 0 ≤ s.price_score ∧ s.price_score ≤ 100
      ∧ 0 ≤ s.delivery_reliability_score ∧ s.delivery_reliability_score ≤ 100
      ∧ 0 ≤ s.quality_rating_score ∧ s.quality_rating_score ≤ 100
      ∧ s.overall_score = calculate_overall_score s := by
  unfold processBatch at h
  rcases mem_processBatchAux rs [] s h with hmem | ⟨r, hr, hok⟩
  · cases hmem
  · have hinv := processSupplierData_ok_inv r s hok
    exact ⟨⟨r, hr, hinv.1, hok⟩, hinv.2.1, hinv.2.2.1, hinv.2.2.2.1, hinv.2.2.2.2.1,
      hinv.2.2.2.2.2.1, hinv.2.2.2.2.2.2.1, hinv.2.2.2.2.2.2.2⟩

theorem collection_invariant_witness :
    (∃ r ∈ [sampleValidRecord],
        missingFields r = [] ∧ processSupplierData r = .ok sampleProcessed)
      ∧ 0 ≤ sampleProcessed.price_score ∧ sampleProcessed.price_score ≤ 100
      ∧ 0 ≤ sampleProcessed.delivery_reliability_score
      ∧ sampleProcessed.delivery_reliability_score ≤ 100
      ∧ 0 ≤ sampleProcessed.quality_rating_score
      ∧ sampleProcessed.quality_rating_score ≤ 100
      ∧ sampleProcessed.overall_score = calculate_overall_score sampleProcessed :=
  collection_invariant [sampleValidRecord] sampleProcessed
    (by
      have h : (processBatch [sampleValidRecord]).1 = [sampleProcessed] := rfl
      rw [h]
      exact List.mem_singleton_self _)

/-- C10: on the empty supplier collection `generate_final_report` is total
and produces a report with zero suppliers, an empty ranked sequence, a top
score of 0, and an empty final-ranking section. -/
theorem empty_collection_report :
    generate_final_report [] =
      { totalSuppliers := 0, rankedSuppliers := [], topScore := 0,
        topFlags := [], finalRanking := [] } := by
  have h : rankSuppliers [] = [] := List.mergeSort_nil
  unfold generate_final_report
  rw [h]
  rfl

end VendorSelector
